import Mathlib

/-!
# Verification of the snapshot-diffing and trend-classification engine

Shallow embedding of the core of `gh-trending-monitor`:

* `src/config.py`        — configuration loading (`_get_env_float`, `SURGE_THRESHOLD`);
* `src/database.py`      — the SQLite snapshot store (`save_today_data`,
  `get_repos_by_date`, `get_yesterday_data`, `get_repo_history`, `cleanup_old_data`);
* `src/trend_analyzer.py` — the delta calculator and trend classifier
  (`_calculate_deltas`, `_get_top_20_with_summary`, `_get_top_movers`,
  `_find_new_entries`, `_find_dropped_entries`, `_find_surging_repos`,
  `_find_active_repos`, `calculate_trends`).

Modelling conventions:

* Python dicts holding repository records become structures whose
  always-indexed keys (`repo_name`, `rank`, `stars` — accessed with `repo[...]`
  in the source, so their absence would raise) are plain fields, and whose
  defensively accessed keys (`.get(...)`) are `Option` fields, `none` meaning
  "key absent".
* Calendar dates (`YYYY-MM-DD` strings) become `Int` day numbers: the source
  only ever compares date strings of this fixed format (SQLite `TEXT`
  comparison, which for this format agrees with chronological order) and
  subtracts whole days with `timedelta`, both of which transport to `Int`.
* Python dicts used as maps (`yesterday_map`, `ai_summaries`) become
  association lists with unique keys; lookup is first-match.
* SQLite tables become lists of row structures.  The `id AUTOINCREMENT` and
  `created_at CURRENT_TIMESTAMP` columns of the real schema are not modelled:
  no query of the module ever selects them.
* Python floats become `ℚ`; `round(x, 4)` becomes rounding the rational to
  four decimal places (ties at the fourth decimal, which in the source go
  through IEEE round-half-even, are an idealization no claim exercises).
* In-place mutation of the shared record dicts by the classifier passes is
  modelled by threading the list of records (`store`) through the passes;
  each bucket is a list of *indices* into that shared store, which is exactly
  the aliasing behaviour of the Python lists of dict references.
-/

set_option autoImplicit false

namespace GhTrending

/-! ## Generic helpers -/

/-- First-match lookup in an association list: the model of a Python dict
access `m[k]` / `k in m` for dicts with unique keys. -/
def alookup {α : Type} (k : String) : List (String × α) → Option α
  | [] => none
  | (k', v) :: t => if k' = k then some v else alookup k t

/-- Map a function over a list together with the element's position,
positions starting at `n`. -/
def mapIdxFrom {α : Type} (f : Nat → α → α) (n : Nat) : List α → List α
  | [] => []
  | a :: t => f n a :: mapIdxFrom f (n + 1) t

/-- Ascending stable sort by a key, the model of `ORDER BY key` /
`list.sort(key=...)`. -/
def sortAscBy {α κ : Type} [LinearOrder κ] (key : α → κ) (l : List α) : List α :=
  List.insertionSort (fun a b => key a ≤ key b) l

/-- Descending stable sort by a key, the model of
`list.sort(key=..., reverse=True)`. -/
def sortDescBy {α κ : Type} [LinearOrder κ] (key : α → κ) (l : List α) : List α :=
  List.insertionSort (fun a b => key b ≤ key a) l

/-- Round a rational to four decimal places: the model of Python
`round(x, 4)`. -/
def round4 (q : ℚ) : ℚ := (round (q * 10000) : ℤ) / 10000

/-- Keyed upsert, the model of SQLite `INSERT OR REPLACE` on a `UNIQUE`
key: delete any existing row with the same key value, then insert the new
row. -/
def upsertBy {α κ : Type} [DecidableEq κ] (key : α → κ) (t : List α) (row : α) : List α :=
  t.filter (fun x => decide (key x ≠ key row)) ++ [row]

/-- Fold `upsertBy` over a batch of rows, in order. -/
def upsertAll {α κ : Type} [DecidableEq κ] (key : α → κ) (t : List α) (rows : List α) :
    List α :=
  rows.foldl (upsertBy key) t

/-! ## Data model

In-memory repository record, as produced by the fetcher and annotated by the
analyzer.  `repo_name`, `rank` and `stars` are accessed with `repo[...]` in
`_calculate_deltas`, so they are plain fields; every other key is only
accessed defensively (`.get`) or assigned, hence `Option` with `none`
meaning "key absent". -/

structure Repo where
  repo_name : String
  rank : Int
  stars : Int
  owner : Option String := none
  forks : Option Int := none
  issues : Option Int := none
  language : Option String := none
  url : Option String := none
  description : Option String := none
  topics : Option (List String) := none
  created_at : Option String := none
  updated_at : Option String := none
  rank_delta : Option Int := none
  stars_delta : Option Int := none
  stars_rate : Option ℚ := none
  summary : Option String := none
  use_case : Option String := none
  solves : Option (List String) := none
  category : Option String := none
  category_zh : Option String := none
  deriving DecidableEq

/-- Junk element used as the `List.getD` default when indexing the record
store; every theorem indexes within bounds. -/
def defaultRepo : Repo := { repo_name := "", rank := 0, stars := 0 }

/-- A value of `yesterday_map`: the projection of yesterday's row that
`_calculate_deltas` and `_find_dropped_entries` read, all via `.get`. -/
structure YRec where
  rank : Option Int := none
  stars : Option Int := none
  url : Option String := none
  deriving DecidableEq

/-- `yesterday_map`: Python dict `{repo_name: repo}`, unique keys. -/
abbrev YMap : Type := List (String × YRec)

/-- One AI enrichment record (a value of the `ai_summaries` dict); every key
is read with `.get(key, default)`. -/
structure AIDetail where
  summary : Option String := none
  description : Option String := none
  use_case : Option String := none
  solves : Option (List String) := none
  category : Option String := none
  category_zh : Option String := none
  deriving DecidableEq

/-- `ai_summaries`: Python dict `{repo_name: detail}`, unique keys. -/
abbrev AIMap : Type := List (String × AIDetail)

/-- An entry of the `dropped_entries` bucket, built afresh by
`_find_dropped_entries` (these are new dicts, not aliases of today's
records). -/
structure DroppedRec where
  repo_name : String
  yesterday_rank : Option Int
  stars : Int
  url : String
  summary : Option String := none
  category_zh : Option String := none
  deriving DecidableEq

/-- A row of the `repos_daily` table (columns in schema order; nullable
columns are `Option`). -/
structure DailyRow where
  date : Int
  rank : Int
  repo_name : String
  owner : Option String := none
  stars : Int
  stars_delta : Int := 0
  forks : Option Int := none
  issues : Option Int := none
  language : Option String := none
  url : String := ""
  deriving DecidableEq

/-- A row of the `repos_history` table. -/
structure HistRow where
  repo_name : String
  date : Int
  rank : Int
  stars : Int
  forks : Option Int := none
  deriving DecidableEq

/-- A row of the `repos_details` table.  `solves` and `topics` hold
JSON-serialized arrays; they stay at the storage level here since the core
never reads them back in the claims under study. -/
structure DetailRow where
  repo_name : String
  summary : String
  description : Option String := none
  use_case : Option String := none
  solves : Option String := none
  category : String
  category_zh : String
  topics : Option String := none
  language : Option String := none
  readme_summary : Option String := none
  owner : String
  url : String
  deriving DecidableEq

/-- The persistent store: the three tables created by `init_db`. -/
structure DB where
  repos_daily : List DailyRow
  repos_history : List HistRow
  repos_details : List DetailRow
  deriving DecidableEq

/-! ## `src/config.py` -/

/-- `_get_env_float(key, default)`.  `value` is the environment lookup
result (`os.getenv`); `parseFloat` abstracts the Python builtin `float(...)`
on strings, `none` standing for a raised `ValueError`.  (Python also parses
the non-finite spellings `inf`/`nan`, which fall outside `ℚ`; under CPython
`min`/`max` those clamp into `[0, 1]` as well, so the range conclusion below
is not weakened by the abstraction.)  A parsed value is clamped with
`max(0.0, min(1.0, result))`. -/
def get_env_float (parseFloat : String → Option ℚ) (value : Option String) (dflt : ℚ) : ℚ :=
  match value with
  | none => dflt
  | some s =>
    if s = "" then dflt
    else
      match parseFloat s with
      | some x => max 0 (min 1 x)
      | none => dflt

/-- The default of `SURGE_THRESHOLD` in `config.py` (`0.3`). -/
def SURGE_THRESHOLD_default : ℚ := 3 / 10

/-- `SURGE_THRESHOLD = _get_env_float("SURGE_THRESHOLD", 0.3)`. -/
def SURGE_THRESHOLD (parseFloat : String → Option ℚ) (env : Option String) : ℚ :=
  get_env_float parseFloat env SURGE_THRESHOLD_default

/-! ## `src/database.py` -/

/-- The `repos_daily` `UNIQUE(date, repo_name)` key. -/
def dailyKey (r : DailyRow) : Int × String := (r.date, r.repo_name)

/-- The `repos_history` `UNIQUE(repo_name, date)` key. -/
def histKey (r : HistRow) : String × Int := (r.repo_name, r.date)

/-- The `repos_daily` tuple inserted by `save_today_data` for one repo.
`rank`, `repo_name`, `stars` are plain fields of `Repo` (present in every
record the module handles), so their `repo.get(...)` lookups always find the
key; `stars_delta` defaults to `0` and `url` to `""` as in the source. -/
def toDailyRow (date : Int) (r : Repo) : DailyRow :=
  { date := date
    rank := r.rank
    repo_name := r.repo_name
    owner := r.owner
    stars := r.stars
    stars_delta := r.stars_delta.getD 0
    forks := r.forks
    issues := r.issues
    language := r.language
    url := r.url.getD "" }

/-- The `repos_history` tuple inserted by `save_today_data` for one repo. -/
def toHistRow (date : Int) (r : Repo) : HistRow :=
  { repo_name := r.repo_name
    date := date
    rank := r.rank
    stars := r.stars
    forks := r.forks }

/-- `save_today_data(date, repos)`: for each repo, `INSERT OR REPLACE` into
`repos_daily` and into `repos_history`.  The source interleaves the two
inserts inside one loop; since they touch disjoint tables this equals one
fold per table. -/
def save_today_data (db : DB) (date : Int) (repos : List Repo) : DB :=
  { db with
    repos_daily := upsertAll dailyKey db.repos_daily (repos.map (toDailyRow date))
    repos_history := upsertAll histKey db.repos_history (repos.map (toHistRow date)) }

/-- `get_repos_by_date(date)`: `SELECT ... WHERE date = ? ORDER BY rank`. -/
def get_repos_by_date (db : DB) (date : Int) : List DailyRow :=
  sortAscBy (fun r => r.rank) (db.repos_daily.filter (fun r => decide (r.date = date)))

/-- `get_yesterday_data(date)`: the snapshot of the calendar day exactly one
day before `date`. -/
def get_yesterday_data (db : DB) (date : Int) : List DailyRow :=
  get_repos_by_date db (date - 1)

/-- `get_repo_history(repo_name, days)`:
`SELECT ... WHERE repo_name = ? AND date >= ? ORDER BY date ASC`.  The
source computes `cutoff` from the wall clock; it is a parameter here. -/
def get_repo_history (db : DB) (repo_name : String) (cutoff : Int) : List HistRow :=
  sortAscBy (fun r => r.date)
    (db.repos_history.filter (fun r => decide (r.repo_name = repo_name ∧ cutoff ≤ r.date)))

/-- `cleanup_old_data(days)`.  `retention_days = days or DB_RETENTION_DAYS`:
Python `or` falls back to the configured default when `days` is `None` *or*
`0` (falsy).  `today` stands for `datetime.now()`.  Deletes the
`repos_daily` and `repos_history` rows with `date < cutoff` and returns how
many rows it removed; `repos_details` is untouched. -/
def cleanup_old_data (db : DB) (days : Option Int) (DB_RETENTION_DAYS : Int)
    (today : Int) : DB × Nat :=
  let retention : Int :=
    match days with
    | some n => if n = 0 then DB_RETENTION_DAYS else n
    | none => DB_RETENTION_DAYS
  let cutoff := today - retention
  let keepDaily := db.repos_daily.filter (fun r => decide (¬ r.date < cutoff))
  let keepHistory := db.repos_history.filter (fun r => decide (¬ r.date < cutoff))
  let deleted :=
    (db.repos_daily.length - keepDaily.length) +
      (db.repos_history.length - keepHistory.length)
  ({ db with repos_daily := keepDaily, repos_history := keepHistory }, deleted)

/-! ## `src/trend_analyzer.py`

Every classifier pass both *selects* a bucket and *mutates* the selected
records in place (attaching AI summary fields).  The shared mutable list of
dicts is modelled as a `List Repo` store threaded through the passes; a
bucket is the list of store indices its Python counterpart holds references
to. -/

/-- Apply `f` to the records at the (distinct) positions `idxs`, leaving the
rest untouched: the model of `for repo in bucket: repo[...] = ...` mutating
a sub-multiset of the shared list. -/
def enrichAt (f : Repo → Repo) (idxs : List Nat) (store : List Repo) : List Repo :=
  mapIdxFrom (fun i r => if i ∈ idxs then f r else r) 0 store

/-- The body of the `_calculate_deltas` loop for one record. -/
def annotateDeltas (yesterday_map : YMap) (repo : Repo) : Repo :=
  match alookup repo.repo_name yesterday_map with
  | some yesterday_repo =>
    let yesterday_rank := yesterday_repo.rank.getD repo.rank
    let yesterday_stars := yesterday_repo.stars.getD repo.stars
    let stars_delta := repo.stars - yesterday_stars
    { repo with
      rank_delta := some (yesterday_rank - repo.rank)
      stars_delta := some stars_delta
      stars_rate :=
        some (if 0 < yesterday_stars
          then round4 ((stars_delta : ℚ) / (yesterday_stars : ℚ))
          else 0) }
  | none =>
    { repo with rank_delta := some 0, stars_delta := some 0, stars_rate := some 0 }

/-- `_calculate_deltas(today, yesterday_map)`: annotate every record of
today's list in place and return the same list. -/
def calculate_deltas (today : List Repo) (yesterday_map : YMap) : List Repo :=
  today.map (annotateDeltas yesterday_map)

/-- The enrichment `_get_top_20_with_summary` applies to each of the first
20 records: full AI fields when present, empty-string / empty-list defaults
otherwise — the keys are assigned in both branches. -/
def enrichTop (ai_summaries : AIMap) (repo : Repo) : Repo :=
  match alookup repo.repo_name ai_summaries with
  | some s =>
    { repo with
      summary := some (s.summary.getD "")
      description := some (s.description.getD "")
      use_case := some (s.use_case.getD "")
      solves := some (s.solves.getD [])
      category := some (s.category.getD "")
      category_zh := some (s.category_zh.getD "") }
  | none =>
    { repo with
      summary := some ""
      description := some ""
      use_case := some ""
      solves := some ([] : List String)
      category := some ""
      category_zh := some "" }

/-- The short enrichment the other passes apply: `summary` and
`category_zh` only, and only when the repo is in `ai_summaries`. -/
def enrichShort (ai_summaries : AIMap) (repo : Repo) : Repo :=
  match alookup repo.repo_name ai_summaries with
  | some s =>
    { repo with
      summary := some (s.summary.getD "")
      category_zh := some (s.category_zh.getD "") }
  | none => repo

/-- `_get_top_20_with_summary(today, ai_summaries)`: `today[:20]`, each
record enriched in place.  Returns the updated store and the bucket's
indices (positions `0 .. 19`). -/
def get_top_20_with_summary (today : List Repo) (ai_summaries : AIMap) :
    List Repo × List Nat :=
  let idxs := (List.range today.length).take 20
  (enrichAt (enrichTop ai_summaries) idxs today, idxs)

/-- `_get_top_movers(today, direction, limit, ai_summaries)`: filter to
positive (resp. negative) `stars_delta`, stable-sort descending (resp.
ascending) by `stars_delta`, take `limit`, then attach the short AI fields
(only when `ai_summaries` is non-empty, as in the source's
`if ai_summaries:` guard). -/
def get_top_movers (today : List Repo) (direction : String) (limit : Nat)
    (ai_summaries : AIMap) : List Repo × List Nat :=
  let deltaOf := fun i => ((today.getD i defaultRepo).stars_delta).getD 0
  let movers :=
    if direction = "up" then
      sortDescBy deltaOf ((List.range today.length).filter (fun i => decide (0 < deltaOf i)))
    else
      sortAscBy deltaOf ((List.range today.length).filter (fun i => decide (deltaOf i < 0)))
  let idxs := movers.take limit
  (if ai_summaries.isEmpty then today
   else enrichAt (enrichShort ai_summaries) idxs today, idxs)

/-- `_find_new_entries(today, yesterday_map, ai_summaries)`: the records of
today whose `repo_name` is not a key of `yesterday_map`, in today's list
order, enriched in place with the short AI fields. -/
def find_new_entries (today : List Repo) (yesterday_map : YMap) (ai_summaries : AIMap) :
    List Repo × List Nat :=
  let idxs := (List.range today.length).filter
    (fun i => decide (alookup (today.getD i defaultRepo).repo_name yesterday_map = none))
  (if ai_summaries.isEmpty then today
   else enrichAt (enrichShort ai_summaries) idxs today, idxs)

/-- The fresh record `_find_dropped_entries` appends for one departed
`yesterday_map` entry: yesterday's rank (`.get("rank")`), stars
(`.get("stars", 0)`) and url (`.get("url", "")`), plus the short AI fields
when the repo is in `ai_summaries`.  (The source's `if ai_summaries and ...`
guard is subsumed by the lookup failing on an empty map.) -/
def mkDropped (ai_summaries : AIMap) (p : String × YRec) : DroppedRec :=
  let base : DroppedRec :=
    { repo_name := p.1
      yesterday_rank := p.2.rank
      stars := p.2.stars.getD 0
      url := p.2.url.getD "" }
  match alookup p.1 ai_summaries with
  | some s =>
    { base with
      summary := some (s.summary.getD "")
      category_zh := some (s.category_zh.getD "") }
  | none => base

/-- `_find_dropped_entries(today, yesterday_map, ai_summaries)`: one fresh
record per `yesterday_map` entry whose key is not among today's names,
iterated in the map's order. -/
def find_dropped_entries (today : List Repo) (yesterday_map : YMap)
    (ai_summaries : AIMap) : List DroppedRec :=
  let today_names := today.map Repo.repo_name
  yesterday_map.filterMap (fun p =>
    if p.1 ∈ today_names then none else some (mkDropped ai_summaries p))

/-- `_find_surging_repos(today, ai_summaries)` with the module-global
`SURGE_THRESHOLD` passed explicitly: keep the records with
`stars_rate >= threshold or stars_delta >= 100`, then attach the short AI
fields in place. -/
def find_surging_repos (today : List Repo) (ai_summaries : AIMap) (threshold : ℚ) :
    List Repo × List Nat :=
  let idxs := (List.range today.length).filter
    (fun i => decide (threshold ≤ ((today.getD i defaultRepo).stars_rate).getD 0 ∨
      (100 : Int) ≤ ((today.getD i defaultRepo).stars_delta).getD 0))
  (if ai_summaries.isEmpty then today
   else enrichAt (enrichShort ai_summaries) idxs today, idxs)

/-- `_find_active_repos(today, ai_summaries)`: the records with a truthy
`updated_at` (present and non-empty), stable-sorted descending by
`updated_at`, first 10, enriched in place with the short AI fields. -/
def find_active_repos (today : List Repo) (ai_summaries : AIMap) :
    List Repo × List Nat :=
  let key := fun i => ((today.getD i defaultRepo).updated_at).getD ""
  let idxs :=
    (sortDescBy key
      ((List.range today.length).filter (fun i => decide (key i ≠ "")))).take 10
  (if ai_summaries.isEmpty then today
   else enrichAt (enrichShort ai_summaries) idxs today, idxs)

/-- The value a `repos_daily` row contributes to `yesterday_map` (the row
dict carries all selected columns, so the keys the analyzer reads are
present). -/
def yrecOfDaily (row : DailyRow) : YRec :=
  { rank := some row.rank, stars := some row.stars, url := some row.url }

/-- `yesterday_map` as built by `calculate_trends` from the prior-day
snapshot (`{r["repo_name"]: r for r in yesterday_data}`; an empty
`yesterday_data` gives the empty dict, exactly as the source's
`if yesterday_data else {}`). -/
def ymOf (db : DB) (date : Int) : YMap :=
  (get_yesterday_data db date).map (fun row => (row.repo_name, yrecOfDaily row))

/-- The output structure of `calculate_trends`: the final shared store, the
index lists of the aliasing buckets, and the fresh `dropped_entries`
records. -/
structure TrendResult where
  date : Int
  store : List Repo
  top_20 : List Nat
  rising_top5 : List Nat
  falling_top5 : List Nat
  new_entries : List Nat
  dropped_entries : List DroppedRec
  surging : List Nat
  active : List Nat
  deriving DecidableEq

/-- `calculate_trends(today_data, date, ai_summaries)` with the database,
the `ai_summaries` mapping (the source fetches it from `repos_details` when
passed `None`) and the `SURGE_THRESHOLD` configuration passed explicitly.
Fetches yesterday's snapshot, annotates deltas in place, persists today's
data, then runs the classifier passes in source order on the shared
store. -/
def calculate_trends (db : DB) (today_data : List Repo) (date : Int)
    (ai_summaries : AIMap) (threshold : ℚ) : TrendResult × DB :=
  let yesterday_map := ymOf db date
  let today_with_delta := calculate_deltas today_data yesterday_map
  let db2 := save_today_data db date today_with_delta
  let t20 := get_top_20_with_summary today_with_delta ai_summaries
  let ris := get_top_movers t20.1 "up" 5 ai_summaries
  let fal := get_top_movers ris.1 "down" 5 ai_summaries
  let new := find_new_entries fal.1 yesterday_map ai_summaries
  let dropped := find_dropped_entries new.1 yesterday_map ai_summaries
  let sur := find_surging_repos new.1 ai_summaries threshold
  let act := find_active_repos sur.1 ai_summaries
  ({ date := date
     store := act.1
     top_20 := t20.2
     rising_top5 := ris.2
     falling_top5 := fal.2
     new_entries := new.2
     dropped_entries := dropped
     surging := sur.2
     active := act.2 }, db2)

/-- The trend-bucket structure computed for one run (first projection of
`calculate_trends`). -/
def trendsOf (db : DB) (today_data : List Repo) (date : Int)
    (ai_summaries : AIMap) (threshold : ℚ) : TrendResult :=
  (calculate_trends db today_data date ai_summaries threshold).1

/-- All index buckets of a result, concatenated (every one aliases the same
store). -/
def bucketIdxs (t : TrendResult) : List Nat :=
  t.top_20 ++ t.rising_top5 ++ t.falling_top5 ++ t.new_entries ++ t.surging ++ t.active

/-! Successive states of the shared store inside `calculate_trends`
(definitionally the `let`-chain of `calculate_trends`; named so that the
frame lemmas can speak about one pass at a time). -/

/-- Store after the delta pass. -/
def s1Of (db : DB) (today : List Repo) (date : Int) : List Repo :=
  calculate_deltas today (ymOf db date)

/-- Store after the top-20 pass. -/
def s2Of (db : DB) (today : List Repo) (date : Int) (ai : AIMap) : List Repo :=
  (get_top_20_with_summary (s1Of db today date) ai).1

/-- Store after the rising-movers pass. -/
def s3Of (db : DB) (today : List Repo) (date : Int) (ai : AIMap) : List Repo :=
  (get_top_movers (s2Of db today date ai) "up" 5 ai).1

/-- Store after the falling-movers pass. -/
def s4Of (db : DB) (today : List Repo) (date : Int) (ai : AIMap) : List Repo :=
  (get_top_movers (s3Of db today date ai) "down" 5 ai).1

/-- Store after the new-entries pass. -/
def s5Of (db : DB) (today : List Repo) (date : Int) (ai : AIMap) : List Repo :=
  (find_new_entries (s4Of db today date ai) (ymOf db date) ai).1

/-- Store after the surging pass. -/
def s6Of (db : DB) (today : List Repo) (date : Int) (ai : AIMap) (θ : ℚ) : List Repo :=
  (find_surging_repos (s5Of db today date ai) ai θ).1

/-- Store after the active pass: the final shared store. -/
def s7Of (db : DB) (today : List Repo) (date : Int) (ai : AIMap) (θ : ℚ) : List Repo :=
  (find_active_repos (s6Of db today date ai θ) ai).1

/-! ## Invariant projections used by the frame lemmas -/

/-- The fields of a record that no classifier pass modifies (identity,
metric and delta fields plus the sort key of the active pass). -/
def coreOf (r : Repo) :
    String × Int × Int × Option Int × Option Int × Option ℚ × Option String :=
  (r.repo_name, r.rank, r.stars, r.rank_delta, r.stars_delta, r.stars_rate, r.updated_at)

/-- A record whose six AI-summary keys are all present. -/
def enriched (r : Repo) : Prop :=
  r.summary.isSome ∧ r.description.isSome ∧ r.use_case.isSome ∧
    r.solves.isSome ∧ r.category.isSome ∧ r.category_zh.isSome

/-! ## Concrete fixtures for the witnesses and the counterexample -/

/-- A store with one snapshot row dated `99`. -/
def cxDailyRow : DailyRow :=
  { date := 99, rank := 1, repo_name := "a/b", owner := some "a", stars := 5 }

/-- The store used by the C4 counterexample. -/
def cxDB : DB := { repos_daily := [cxDailyRow], repos_history := [], repos_details := [] }

/-- Row at the C4 retention boundary (kept). -/
def w4row1 : DailyRow := { date := 90, rank := 1, repo_name := "x/y", stars := 1 }

/-- Row one day past the retention horizon (deleted). -/
def w4row2 : DailyRow := { date := 89, rank := 2, repo_name := "y/z", stars := 2 }

/-- Store used by the C4 witness. -/
def w4DB : DB := { repos_daily := [w4row1, w4row2], repos_history := [], repos_details := [] }

/-- Concrete record: already known yesterday, metric grew from 100 to 150. -/
def wRepoA : Repo :=
  { repo_name := "alice/alpha", rank := 1, stars := 150
    url := some "https://github.com/alice/alpha"
    updated_at := some "2026-01-02T00:00:00Z" }

/-- Concrete record: a new entrant today. -/
def wRepoB : Repo := { repo_name := "bob/beta", rank := 2, stars := 40 }

/-- Yesterday's state of `alice/alpha`: rank 3, 100 stars. -/
def wYA : YRec :=
  { rank := some 3, stars := some 100, url := some "https://github.com/alice/alpha" }

/-- Yesterday's state of `carol/gamma`, which departs today. -/
def wYC : YRec := { rank := some 5, stars := some 70, url := some "g" }

/-- Concrete yesterday mapping. -/
def wYMap : YMap := [("alice/alpha", wYA), ("carol/gamma", wYC)]

/-- Concrete AI enrichment record. -/
def wDetailA : AIDetail :=
  { summary := some "sum", description := some "desc", use_case := some "use"
    solves := some ["p1"], category := some "tool", category_zh := some "tool-zh" }

/-- Concrete AI mapping. -/
def wAI : AIMap := [("alice/alpha", wDetailA)]

/-- The empty store. -/
def wDBEmpty : DB := { repos_daily := [], repos_history := [], repos_details := [] }

/-! ## Helper lemmas -/

theorem length_mapIdxFrom {α : Type} (f : Nat → α → α) (n : Nat) (l : List α) :
    (mapIdxFrom f n l).length = l.length := by
  induction l generalizing n with
  | nil => rfl
  | cons a t ih => simp [mapIdxFrom, ih]

theorem getD_mapIdxFrom {α : Type} (f : Nat → α → α) (n : Nat) (l : List α)
    (i : Nat) (hi : i < l.length) (d : α) :
    (mapIdxFrom f n l).getD i d = f (n + i) (l.getD i d) := by
  induction l generalizing n i with
  | nil => simp at hi
  | cons a t ih =>
    cases i with
    | zero => simp [mapIdxFrom]
    | succ j =>
      have hj : j < t.length := by simpa using hi
      simp only [mapIdxFrom, List.getD_cons_succ]
      rw [ih (n + 1) j hj]
      ring_nf

theorem map_mapIdxFrom {α β : Type} (f : Nat → α → α) (g : α → β) (n : Nat) (l : List α)
    (hf : ∀ i a, g (f i a) = g a) :
    (mapIdxFrom f n l).map g = l.map g := by
  induction l generalizing n with
  | nil => rfl
  | cons a t ih => simp [mapIdxFrom, hf, ih]

theorem perm_sortAscBy {α κ : Type} [LinearOrder κ] (key : α → κ) (l : List α) :
    (sortAscBy key l).Perm l :=
  List.perm_insertionSort _ l

theorem perm_sortDescBy {α κ : Type} [LinearOrder κ] (key : α → κ) (l : List α) :
    (sortDescBy key l).Perm l :=
  List.perm_insertionSort _ l

theorem mem_sortAscBy {α κ : Type} [LinearOrder κ] (key : α → κ) (l : List α) (x : α) :
    x ∈ sortAscBy key l ↔ x ∈ l :=
  (perm_sortAscBy key l).mem_iff

theorem mem_sortDescBy {α κ : Type} [LinearOrder κ] (key : α → κ) (l : List α) (x : α) :
    x ∈ sortDescBy key l ↔ x ∈ l :=
  (perm_sortDescBy key l).mem_iff

theorem sorted_sortAscBy {α κ : Type} [LinearOrder κ] (key : α → κ) (l : List α) :
    List.Sorted (fun a b => key a ≤ key b) (sortAscBy key l) := by
  haveI : IsTotal α (fun a b => key a ≤ key b) := ⟨fun a b => le_total (key a) (key b)⟩
  haveI : IsTrans α (fun a b => key a ≤ key b) := ⟨fun _ _ _ h h' => le_trans h h'⟩
  exact List.sorted_insertionSort _ l

theorem getD_map {α β : Type} (f : α → β) (l : List α) (i : Nat) (hi : i < l.length)
    (d : β) (d' : α) : (l.map f).getD i d = f (l.getD i d') := by
  have hi' : i < (l.map f).length := by simpa using hi
  rw [List.getD_eq_getElem l d' hi, List.getD_eq_getElem (l.map f) d hi',
    List.getElem_map]

theorem getD_of_le {α : Type} (l : List α) (i : Nat) (hi : l.length ≤ i) (d : α) :
    l.getD i d = d := by
  rw [List.getD_eq_getElem?_getD, List.getElem?_eq_none (by simpa using hi)]
  rfl

theorem alookup_eq_none {α : Type} (k : String) (l : List (String × α)) :
    alookup k l = none ↔ k ∉ l.map Prod.fst := by
  induction l with
  | nil => simp [alookup]
  | cons p t ih =>
    by_cases h : p.1 = k
    · simp [alookup, h]
    · simp only [alookup, if_neg h, List.map_cons, List.mem_cons, ih]
      constructor
      · rintro hk (hh | hh)
        · exact h hh.symm
        · exact hk hh
      · intro hk
        intro hmem
        exact hk (Or.inr hmem)

theorem length_enrichAt (f : Repo → Repo) (idxs : List Nat) (store : List Repo) :
    (enrichAt f idxs store).length = store.length :=
  length_mapIdxFrom _ 0 store

theorem getD_enrichAt (f : Repo → Repo) (idxs : List Nat) (store : List Repo)
    (i : Nat) (hi : i < store.length) (d : Repo) :
    (enrichAt f idxs store).getD i d =
      if i ∈ idxs then f (store.getD i d) else store.getD i d := by
  unfold enrichAt
  rw [getD_mapIdxFrom _ 0 store i hi d]
  simp

theorem map_enrichAt {β : Type} (g : Repo → β) (f : Repo → Repo) (idxs : List Nat)
    (store : List Repo) (hf : ∀ r, g (f r) = g r) :
    (enrichAt f idxs store).map g = store.map g := by
  unfold enrichAt
  exact map_mapIdxFrom _ g 0 store (fun i a => by by_cases h : i ∈ idxs <;> simp [h, hf])

theorem coreOf_enrichShort (ai : AIMap) (r : Repo) :
    coreOf (enrichShort ai r) = coreOf r := by
  unfold enrichShort
  cases alookup r.repo_name ai <;> rfl

theorem coreOf_enrichTop (ai : AIMap) (r : Repo) :
    coreOf (enrichTop ai r) = coreOf r := by
  unfold enrichTop
  cases alookup r.repo_name ai <;> rfl

theorem name_enrichShort (ai : AIMap) (r : Repo) :
    (enrichShort ai r).repo_name = r.repo_name := by
  unfold enrichShort
  cases alookup r.repo_name ai <;> rfl

theorem name_enrichTop (ai : AIMap) (r : Repo) :
    (enrichTop ai r).repo_name = r.repo_name := by
  unfold enrichTop
  cases alookup r.repo_name ai <;> rfl

theorem name_annotateDeltas (ym : YMap) (r : Repo) :
    (annotateDeltas ym r).repo_name = r.repo_name := by
  unfold annotateDeltas
  cases alookup r.repo_name ym <;> rfl

theorem enriched_enrichTop (ai : AIMap) (r : Repo) : enriched (enrichTop ai r) := by
  unfold enrichTop enriched
  cases alookup r.repo_name ai <;> simp

theorem enriched_enrichShort (ai : AIMap) (r : Repo) (h : enriched r) :
    enriched (enrichShort ai r) := by
  unfold enrichShort
  cases alookup r.repo_name ai with
  | none => exact h
  | some s =>
    obtain ⟨_, h2, h3, h4, h5, _⟩ := h
    exact ⟨by simp, h2, h3, h4, h5, by simp⟩

/-! ## Claim C9 — the surge threshold always lands in `[0, 1]` -/

/-- C9: for every environment value, the surge threshold lies in `[0, 1]`;
an unset, empty or unparsable value falls back to the default `0.3`, a
parsable value is clamped into `[0, 1]` (so a configured `2.0` becomes
`1.0`), and the loader is total (it never raises for a malformed
threshold). -/
theorem C9_surge_threshold_clamped (parseFloat : String → Option ℚ) (env : Option String) :
    (0 ≤ SURGE_THRESHOLD parseFloat env ∧ SURGE_THRESHOLD parseFloat env ≤ 1) ∧
    (env = none → SURGE_THRESHOLD parseFloat env = 3 / 10) ∧
    (env = some "" → SURGE_THRESHOLD parseFloat env = 3 / 10) ∧
    (∀ s, env = some s → s ≠ "" → parseFloat s = none →
      SURGE_THRESHOLD parseFloat env = 3 / 10) ∧
    (∀ s x, env = some s → s ≠ "" → parseFloat s = some x →
      SURGE_THRESHOLD parseFloat env = max 0 (min 1 x)) ∧
    (∀ s, env = some s → s ≠ "" → parseFloat s = some 2 →
      SURGE_THRESHOLD parseFloat env = 1) := by
  unfold SURGE_THRESHOLD get_env_float SURGE_THRESHOLD_default
  refine ⟨?_, ?_, ?_, ?_, ?_, ?_⟩
  · cases env with
    | none => norm_num
    | some s =>
      by_cases hs : s = ""
      · simp only [hs, if_pos rfl]
        norm_num
      · simp only [if_neg hs]
        cases hp : parseFloat s with
        | none => norm_num
        | some x =>
          refine ⟨le_max_left 0 _, max_le (by norm_num) ?_⟩
          exact le_trans (min_le_left 1 x) le_rfl
  · rintro rfl; rfl
  · rintro rfl; simp
  · rintro s rfl hs hp; simp [hs, hp]
  · rintro s x rfl hs hp; simp [hs, hp]
  · rintro s rfl hs hp
    simp only [if_neg hs, hp]
    norm_num

/-- Witness for C9: a configured value of `2` is clamped to `1`. -/
theorem C9_witness :
    SURGE_THRESHOLD (fun _ => some 2) (some "2.0") = 1 :=
  (C9_surge_threshold_clamped (fun _ => some 2) (some "2.0")).2.2.2.2.2 "2.0" rfl
    (by decide) rfl

/-! ## Claim C4 — retention purge (corrected: a zero horizon falls back)

`cleanup_old_data` computes `retention_days = days or DB_RETENTION_DAYS`;
Python `or` treats a passed horizon of `0` as falsy and silently replaces
it with the configured default, so the claim's universally quantified
"every retention horizon `R`" fails at `R = 0`.  For every nonzero horizon
the purge behaves exactly as claimed. -/

/-- C4 (amended to nonzero horizons): for every store state, every
*nonzero* retention horizon `R` and today's date `D`, the purge keeps
exactly the `repos_daily` and `repos_history` rows with `date ≥ D - R`
(a row dated `D - R` is retained, one dated `D - R - 1` is deleted),
returns the number of removed rows, and leaves `repos_details`
unchanged. -/
theorem C4_retention (db : DB) (R dflt D : Int) (hR : R ≠ 0) :
    ((cleanup_old_data db (some R) dflt D).1.repos_daily =
      db.repos_daily.filter (fun r => decide (¬ r.date < D - R))) ∧
    ((cleanup_old_data db (some R) dflt D).1.repos_history =
      db.repos_history.filter (fun r => decide (¬ r.date < D - R))) ∧
    ((cleanup_old_data db (some R) dflt D).1.repos_details = db.repos_details) ∧
    ((cleanup_old_data db (some R) dflt D).2 =
      (db.repos_daily.filter (fun r => decide (r.date < D - R))).length +
        (db.repos_history.filter (fun r => decide (r.date < D - R))).length) ∧
    (∀ r ∈ db.repos_daily, r.date = D - R →
      r ∈ (cleanup_old_data db (some R) dflt D).1.repos_daily) ∧
    (∀ r ∈ db.repos_daily, r.date = D - R - 1 →
      r ∉ (cleanup_old_data db (some R) dflt D).1.repos_daily) ∧
    (∀ r ∈ db.repos_history, r.date = D - R →
      r ∈ (cleanup_old_data db (some R) dflt D).1.repos_history) ∧
    (∀ r ∈ db.repos_history, r.date = D - R - 1 →
      r ∉ (cleanup_old_data db (some R) dflt D).1.repos_history) := by
  have hkeep :
      (cleanup_old_data db (some R) dflt D).1.repos_daily =
        db.repos_daily.filter (fun r => decide (¬ r.date < D - R)) := by
    simp [cleanup_old_data, hR]
  have hkeepH :
      (cleanup_old_data db (some R) dflt D).1.repos_history =
        db.repos_history.filter (fun r => decide (¬ r.date < D - R)) := by
    simp [cleanup_old_data, hR]
  refine ⟨hkeep, hkeepH, by simp [cleanup_old_data, hR], ?_, ?_, ?_, ?_, ?_⟩
  · have h1 : db.repos_daily.length =
        (db.repos_daily.filter (fun r => decide (r.date < D - R))).length +
          (db.repos_daily.filter
            (fun x => !(fun r : DailyRow => decide (r.date < D - R)) x)).length :=
      List.length_eq_length_filter_add _
    have h2 : db.repos_history.length =
        (db.repos_history.filter (fun r => decide (r.date < D - R))).length +
          (db.repos_history.filter
            (fun x => !(fun r : HistRow => decide (r.date < D - R)) x)).length :=
      List.length_eq_length_filter_add _
    have hc : (cleanup_old_data db (some R) dflt D).2 =
        (db.repos_daily.length -
          (db.repos_daily.filter (fun r => decide (¬ r.date < D - R))).length) +
        (db.repos_history.length -
          (db.repos_history.filter (fun r => decide (¬ r.date < D - R))).length) := by
      simp [cleanup_old_data, hR]
    rw [hc]
    simp only [decide_not] at h1 h2 ⊢
    omega
  · intro r hr hd
    rw [hkeep]
    refine List.mem_filter.mpr ⟨hr, by simp [hd]⟩
  · intro r hr hd
    rw [hkeep]
    intro hmem
    have := (List.mem_filter.mp hmem).2
    simp [hd] at this
  · intro r hr hd
    rw [hkeepH]
    refine List.mem_filter.mpr ⟨hr, by simp [hd]⟩
  · intro r hr hd
    rw [hkeepH]
    intro hmem
    have := (List.mem_filter.mp hmem).2
    simp [hd] at this

/-- Counterexample to C4 as stated: with horizon `R = 0` (configured default
`90`) and today `D = 100`, the row dated `99` satisfies `date < D - R`, so
the claim says it is deleted — but the purge keeps it (and removes zero
rows), because `days or DB_RETENTION_DAYS` replaces the `0` horizon with
`90`. -/
theorem C4_counterexample :
    cxDailyRow.date < 100 - 0 ∧
    (cleanup_old_data cxDB (some 0) 90 100).1.repos_daily = [cxDailyRow] ∧
    (cleanup_old_data cxDB (some 0) 90 100).2 = 0 := by
  refine ⟨by norm_num [cxDailyRow], ?_, ?_⟩ <;> decide

/-- Witness for C4: horizon `10`, today `100` — the row dated `90` is kept,
the row dated `89` is deleted, one row removed in total. -/
theorem C4_witness :
    (cleanup_old_data w4DB (some 10) 90 100).1.repos_daily = [w4row1] ∧
    (cleanup_old_data w4DB (some 10) 90 100).2 = 1 := by
  have h := C4_retention w4DB 10 90 100 (by decide)
  refine ⟨?_, ?_⟩
  · rw [h.1]; decide
  · rw [h.2.2.2.1]; decide

/-! ## Claim C2 — the surging bucket fires on rate OR absolute floor -/

/-- C2: a delta-annotated record joins the surging bucket iff
`stars_rate >= threshold` or `stars_delta >= 100`; in particular a rate
exactly at the threshold is included, and a rate strictly below it is
excluded unless the absolute delta independently reaches the floor. -/
theorem C2_surging (today : List Repo) (ai : AIMap) (θ : ℚ) (i : Nat)
    (hi : i < today.length) :
    (i ∈ (find_surging_repos today ai θ).2 ↔
      (θ ≤ ((today.getD i defaultRepo).stars_rate).getD 0 ∨
        (100 : Int) ≤ ((today.getD i defaultRepo).stars_delta).getD 0)) ∧
    (((today.getD i defaultRepo).stars_rate).getD 0 = θ →
      i ∈ (find_surging_repos today ai θ).2) ∧
    (((today.getD i defaultRepo).stars_rate).getD 0 < θ →
      ((today.getD i defaultRepo).stars_delta).getD 0 < 100 →
      i ∉ (find_surging_repos today ai θ).2) := by
  have hmem : i ∈ (find_surging_repos today ai θ).2 ↔
      (θ ≤ ((today.getD i defaultRepo).stars_rate).getD 0 ∨
        (100 : Int) ≤ ((today.getD i defaultRepo).stars_delta).getD 0) := by
    simp [find_surging_repos, List.mem_filter, List.mem_range, hi]
  refine ⟨hmem, ?_, ?_⟩
  · intro hrate
    exact hmem.mpr (Or.inl (le_of_eq hrate.symm))
  · intro hrate hdelta hin
    rcases hmem.mp hin with h | h
    · exact absurd h (not_le.mpr hrate)
    · exact absurd h (not_le.mpr hdelta)

/-- Witness for C2: `alice/alpha` annotated with rate `0.3` and delta `50`
is surging at threshold `0.3`. -/
theorem C2_witness :
    0 ∈ (find_surging_repos
      [{ wRepoA with stars_delta := some 50, stars_rate := some (3 / 10) }] wAI
      (3 / 10)).2 := by
  have h := C2_surging
    [{ wRepoA with stars_delta := some 50, stars_rate := some (3 / 10) }] wAI
    (3 / 10) 0 (by decide)
  exact h.2.1 (by rfl)

/-! ## Claim C1 — the delta pass -/

/-- C1: the delta pass neither adds nor removes records and leaves the
identity fields untouched; a record whose `repo_name` is a key of
yesterday's mapping (with yesterday's rank and stars present, as every
database-sourced mapping has them) gets
`rank_delta = yesterday.rank - today.rank`,
`stars_delta = today.stars - yesterday.stars` and
`stars_rate = round4(stars_delta / yesterday.stars)` when
`yesterday.stars > 0` and `0` otherwise; a record absent from the mapping
gets all three deltas `0` regardless of its rank or stars. -/
theorem C1_deltas (today : List Repo) (ym : YMap) (i : Nat) (hi : i < today.length) :
    (calculate_deltas today ym).length = today.length ∧
    ((calculate_deltas today ym).getD i defaultRepo).repo_name =
      (today.getD i defaultRepo).repo_name ∧
    ((calculate_deltas today ym).getD i defaultRepo).rank =
      (today.getD i defaultRepo).rank ∧
    ((calculate_deltas today ym).getD i defaultRepo).stars =
      (today.getD i defaultRepo).stars ∧
    (∀ y yr ys, alookup (today.getD i defaultRepo).repo_name ym = some y →
      y.rank = some yr → y.stars = some ys →
      ((calculate_deltas today ym).getD i defaultRepo).rank_delta =
        some (yr - (today.getD i defaultRepo).rank) ∧
      ((calculate_deltas today ym).getD i defaultRepo).stars_delta =
        some ((today.getD i defaultRepo).stars - ys) ∧
      ((calculate_deltas today ym).getD i defaultRepo).stars_rate =
        some (if 0 < ys
          then round4 ((((today.getD i defaultRepo).stars - ys : Int) : ℚ) / (ys : ℚ))
          else 0)) ∧
    (alookup (today.getD i defaultRepo).repo_name ym = none →
      ((calculate_deltas today ym).getD i defaultRepo).rank_delta = some 0 ∧
      ((calculate_deltas today ym).getD i defaultRepo).stars_delta = some 0 ∧
      ((calculate_deltas today ym).getD i defaultRepo).stars_rate = some 0) := by
  have hget : (calculate_deltas today ym).getD i defaultRepo =
      annotateDeltas ym (today.getD i defaultRepo) :=
    getD_map _ today i hi defaultRepo defaultRepo
  refine ⟨by simp [calculate_deltas], ?_, ?_, ?_, ?_, ?_⟩
  · rw [hget]; exact name_annotateDeltas ym _
  · rw [hget]; unfold annotateDeltas
    cases alookup (today.getD i defaultRepo).repo_name ym <;> rfl
  · rw [hget]; unfold annotateDeltas
    cases alookup (today.getD i defaultRepo).repo_name ym <;> rfl
  · intro y yr ys hy hyr hys
    rw [hget]
    unfold annotateDeltas
    rw [hy]
    simp [hyr, hys]
  · intro hnone
    rw [hget]
    unfold annotateDeltas
    rw [hnone]
    exact ⟨rfl, rfl, rfl⟩

/-- Witness for C1: `alice/alpha` (rank 1, 150 stars) against yesterday's
rank 3 and 100 stars gets `rank_delta = 2`, `stars_delta = 50`,
`stars_rate = 0.5`; `bob/beta`, absent yesterday, gets zeros. -/
theorem C1_witness :
    ((calculate_deltas [wRepoA, wRepoB] wYMap).getD 0 defaultRepo).rank_delta = some 2 ∧
    ((calculate_deltas [wRepoA, wRepoB] wYMap).getD 0 defaultRepo).stars_delta = some 50 ∧
    ((calculate_deltas [wRepoA, wRepoB] wYMap).getD 0 defaultRepo).stars_rate =
      some (1 / 2) ∧
    ((calculate_deltas [wRepoA, wRepoB] wYMap).getD 1 defaultRepo).rank_delta = some 0 ∧
    ((calculate_deltas [wRepoA, wRepoB] wYMap).getD 1 defaultRepo).stars_delta = some 0 ∧
    ((calculate_deltas [wRepoA, wRepoB] wYMap).getD 1 defaultRepo).stars_rate = some 0 := by
  have hA := (C1_deltas [wRepoA, wRepoB] wYMap 0 (by decide)).2.2.2.2.1 wYA 3 100
    (by decide) rfl rfl
  have hB := (C1_deltas [wRepoA, wRepoB] wYMap 1 (by decide)).2.2.2.2.2 (by decide)
  obtain ⟨hA1, hA2, hA3⟩ := hA
  refine ⟨?_, ?_, ?_, hB.1, hB.2.1, hB.2.2⟩
  · rw [hA1]; decide
  · rw [hA2]; decide
  · rw [hA3]
    norm_num [wRepoA, round4, round_eq]

/-! ## Claim C7 — the top-20 bucket and its enrichment defaults -/

theorem map_getD_take_range {α : Type} (l : List α) (m : Nat) (d : α) :
    ((List.range l.length).take m).map (fun i => l.getD i d) = l.take m := by
  apply List.ext_getElem
  · simp [List.take_range]
  · intro i h1 h2
    have hi : i < l.length := by
      simp only [List.length_take, List.length_map, List.take_range,
        List.length_range] at h1
      omega
    simp only [List.take_range, List.getElem_map, List.getElem_range,
      List.getElem_take]
    exact List.getD_eq_getElem l d hi

theorem rank_enrichTop (ai : AIMap) (r : Repo) : (enrichTop ai r).rank = r.rank := by
  unfold enrichTop
  cases alookup r.repo_name ai <;> rfl

/-- C7: the top bucket is exactly the first 20 records of today's list (in
particular, by rank ascending whenever today's list is rank-sorted); each
bucket record is merged with its enrichment record when `ai_summaries`
contains its name, and otherwise gets `summary`, `description`,
`use_case`, `category`, `category_zh` set to `""` and `solves` to `[]` —
the keys are present in both cases, never absent. -/
theorem C7_top20 (today : List Repo) (ai : AIMap) :
    (get_top_20_with_summary today ai).2 = (List.range today.length).take 20 ∧
    (get_top_20_with_summary today ai).1.length = today.length ∧
    (get_top_20_with_summary today ai).1.map Repo.rank = today.map Repo.rank ∧
    ((get_top_20_with_summary today ai).2.map
        (fun i => (get_top_20_with_summary today ai).1.getD i defaultRepo) =
      (get_top_20_with_summary today ai).1.take 20) ∧
    (∀ i, i < today.length → i < 20 →
      (∀ s, alookup (today.getD i defaultRepo).repo_name ai = some s →
        ((get_top_20_with_summary today ai).1.getD i defaultRepo).summary =
          some (s.summary.getD "") ∧
        ((get_top_20_with_summary today ai).1.getD i defaultRepo).description =
          some (s.description.getD "") ∧
        ((get_top_20_with_summary today ai).1.getD i defaultRepo).use_case =
          some (s.use_case.getD "") ∧
        ((get_top_20_with_summary today ai).1.getD i defaultRepo).solves =
          some (s.solves.getD []) ∧
        ((get_top_20_with_summary today ai).1.getD i defaultRepo).category =
          some (s.category.getD "") ∧
        ((get_top_20_with_summary today ai).1.getD i defaultRepo).category_zh =
          some (s.category_zh.getD "")) ∧
      (alookup (today.getD i defaultRepo).repo_name ai = none →
        ((get_top_20_with_summary today ai).1.getD i defaultRepo).summary = some "" ∧
        ((get_top_20_with_summary today ai).1.getD i defaultRepo).description = some "" ∧
        ((get_top_20_with_summary today ai).1.getD i defaultRepo).use_case = some "" ∧
        ((get_top_20_with_summary today ai).1.getD i defaultRepo).solves =
          some ([] : List String) ∧
        ((get_top_20_with_summary today ai).1.getD i defaultRepo).category = some "" ∧
        ((get_top_20_with_summary today ai).1.getD i defaultRepo).category_zh =
          some "")) ∧
    ((today.map Repo.rank).Sorted (· ≤ ·) →
      (((get_top_20_with_summary today ai).1.take 20).map Repo.rank).Sorted (· ≤ ·)) := by
  have hsnd : (get_top_20_with_summary today ai).2 =
      (List.range today.length).take 20 := rfl
  have hfst : (get_top_20_with_summary today ai).1 =
      enrichAt (enrichTop ai) ((List.range today.length).take 20) today := rfl
  have hlen : (get_top_20_with_summary today ai).1.length = today.length := by
    rw [hfst]; exact length_enrichAt _ _ _
  have hrank : (get_top_20_with_summary today ai).1.map Repo.rank =
      today.map Repo.rank := by
    rw [hfst]
    exact map_enrichAt Repo.rank _ _ today (rank_enrichTop ai)
  refine ⟨hsnd, hlen, hrank, ?_, ?_, ?_⟩
  · rw [hsnd]
    have := map_getD_take_range (get_top_20_with_summary today ai).1 20 defaultRepo
    rw [hlen] at this
    exact this
  · intro i hi h20
    have hidx : i ∈ (List.range today.length).take 20 := by
      rw [List.take_range]
      exact List.mem_range.mpr (by omega)
    have hget : (get_top_20_with_summary today ai).1.getD i defaultRepo =
        enrichTop ai (today.getD i defaultRepo) := by
      rw [hfst, getD_enrichAt _ _ _ i hi, if_pos hidx]
    constructor
    · intro s hs
      rw [hget]
      unfold enrichTop
      rw [hs]
      exact ⟨rfl, rfl, rfl, rfl, rfl, rfl⟩
    · intro hs
      rw [hget]
      unfold enrichTop
      rw [hs]
      exact ⟨rfl, rfl, rfl, rfl, rfl, rfl⟩
  · intro hs
    have heq : ((get_top_20_with_summary today ai).1.take 20).map Repo.rank =
        (today.map Repo.rank).take 20 := by
      rw [List.map_take, hrank]
    rw [heq]
    exact List.Pairwise.sublist (List.take_sublist _ _) hs

/-- Witness for C7: `alice/alpha` (enriched) gets its AI fields,
`bob/beta` (no enrichment record) gets present-but-empty defaults. -/
theorem C7_witness :
    ((get_top_20_with_summary [wRepoA, wRepoB] wAI).1.getD 0 defaultRepo).summary =
      some "sum" ∧
    ((get_top_20_with_summary [wRepoA, wRepoB] wAI).1.getD 0 defaultRepo).solves =
      some ["p1"] ∧
    ((get_top_20_with_summary [wRepoA, wRepoB] wAI).1.getD 1 defaultRepo).summary =
      some "" ∧
    ((get_top_20_with_summary [wRepoA, wRepoB] wAI).1.getD 1 defaultRepo).solves =
      some ([] : List String) := by
  have h0 := ((C7_top20 [wRepoA, wRepoB] wAI).2.2.2.2.1 0 (by decide) (by decide)).1
    wDetailA (by decide)
  have h1 := ((C7_top20 [wRepoA, wRepoB] wAI).2.2.2.2.1 1 (by decide) (by decide)).2
    (by decide)
  refine ⟨?_, ?_, h1.1, h1.2.2.2.1⟩
  · rw [h0.1]; rfl
  · rw [h0.2.2.2.1]; rfl

/-! ## Claim C3 — new and departed entrants are the two set differences -/

theorem mkDropped_fields (ai : AIMap) (p : String × YRec) :
    (mkDropped ai p).repo_name = p.1 ∧
    (mkDropped ai p).yesterday_rank = p.2.rank ∧
    (mkDropped ai p).stars = p.2.stars.getD 0 ∧
    (mkDropped ai p).url = p.2.url.getD "" := by
  unfold mkDropped
  cases alookup p.1 ai <;> exact ⟨rfl, rfl, rfl, rfl⟩

theorem length_filter_range_getD {α : Type} (l : List α) (p : α → Bool) (d : α) :
    ((List.range l.length).filter (fun i => p (l.getD i d))).length =
      (l.filter p).length := by
  induction l with
  | nil => rfl
  | cons a t ih =>
    have hcomp :
        ((List.range t.length).map Nat.succ).filter
            (fun i => p ((a :: t).getD i d)) =
          ((List.range t.length).filter (fun i => p (t.getD i d))).map Nat.succ := by
      rw [List.filter_map]
      rfl
    rw [List.length_cons, List.range_succ_eq_map, List.filter_cons, List.filter_cons]
    by_cases hp : p a
    · rw [if_pos (show p ((a :: t).getD 0 d) = true from hp), if_pos hp,
        List.length_cons, List.length_cons, hcomp, List.length_map, ih]
    · rw [if_neg (show ¬ p ((a :: t).getD 0 d) = true from hp), if_neg hp,
        hcomp, List.length_map, ih]

theorem length_filter_notin_add_card_inter (N K : List String) (hN : N.Nodup) :
    (N.filter (fun x => decide (x ∉ K))).length +
      (N.toFinset ∩ K.toFinset).card = N.toFinset.card := by
  have hsplit : N.length =
      (N.filter (fun x => decide (x ∈ K))).length +
        (N.filter (fun x => !(fun y => decide (y ∈ K)) x)).length :=
    List.length_eq_length_filter_add _
  have hcard : N.toFinset.card = N.length := List.toFinset_card_of_nodup hN
  have h1 : (N.filter (fun x => decide (x ∈ K))).toFinset = N.toFinset ∩ K.toFinset := by
    rw [List.toFinset_filter, ← Finset.filter_mem_eq_inter]
    apply Finset.filter_congr
    intro x _
    simp
  have hinter : (N.toFinset ∩ K.toFinset).card =
      (N.filter (fun x => decide (x ∈ K))).length := by
    rw [← h1, List.toFinset_card_of_nodup (hN.filter _)]
  have hnotK : (N.filter (fun x => decide (x ∉ K))).length =
      (N.filter (fun x => !(fun y => decide (y ∈ K)) x)).length := by
    congr 1
    apply List.filter_congr
    intro x _
    simp
  rw [hcard, hinter, hnotK]
  omega

/-- C3: the new-entrants bucket holds exactly the records of today whose
name is absent from yesterday's mapping, in today's order; the departed
bucket holds exactly one fresh entry per yesterday-key absent today, in the
mapping's order, carrying yesterday's rank and stars; and (for a duplicate-
free snapshot) `|new_entrants| + |T ∩ Y| = |T|`. -/
theorem C3_set_differences (today : List Repo) (ym : YMap) (ai : AIMap) :
    (∀ i, i < today.length →
      (i ∈ (find_new_entries today ym ai).2 ↔
        alookup (today.getD i defaultRepo).repo_name ym = none)) ∧
    (find_new_entries today ym ai).2.Pairwise (· < ·) ∧
    ((find_dropped_entries today ym ai).map DroppedRec.repo_name =
      (ym.filter (fun p => decide (p.1 ∉ today.map Repo.repo_name))).map Prod.fst) ∧
    (∀ p ∈ ym, p.1 ∉ today.map Repo.repo_name →
      ∃ dr ∈ find_dropped_entries today ym ai,
        dr.repo_name = p.1 ∧ dr.yesterday_rank = p.2.rank ∧
        dr.stars = p.2.stars.getD 0 ∧ dr.url = p.2.url.getD "") ∧
    (∀ dr ∈ find_dropped_entries today ym ai,
      dr.repo_name ∉ today.map Repo.repo_name ∧ dr.repo_name ∈ ym.map Prod.fst) ∧
    ((today.map Repo.repo_name).Nodup →
      (find_new_entries today ym ai).2.length +
        ((today.map Repo.repo_name).toFinset ∩ (ym.map Prod.fst).toFinset).card =
        (today.map Repo.repo_name).toFinset.card) := by
  refine ⟨?_, ?_, ?_, ?_, ?_, ?_⟩
  · intro i hi
    simp [find_new_entries, List.mem_filter, List.mem_range, hi]
  · exact List.Pairwise.filter _ (List.pairwise_lt_range _)
  · show (List.filterMap _ ym).map DroppedRec.repo_name = _
    induction ym with
    | nil => rfl
    | cons q t ih =>
      by_cases hq : q.1 ∈ today.map Repo.repo_name
      · simp only [List.filterMap_cons, if_pos hq, List.filter_cons]
        rw [if_neg (by simp [hq])]
        exact ih
      · simp only [List.filterMap_cons, if_neg hq, List.filter_cons]
        rw [if_pos (by simp [hq]), List.map_cons, List.map_cons, ih,
          (mkDropped_fields ai q).1]
  · intro p hp hnot
    refine ⟨mkDropped ai p, ?_, (mkDropped_fields ai p).1, (mkDropped_fields ai p).2.1,
      (mkDropped_fields ai p).2.2.1, (mkDropped_fields ai p).2.2.2⟩
    apply List.mem_filterMap.mpr
    exact ⟨p, hp, by simp [hnot]⟩
  · intro dr hdr
    obtain ⟨p, hp, hsome⟩ := List.mem_filterMap.mp hdr
    by_cases hq : p.1 ∈ today.map Repo.repo_name
    · simp [hq] at hsome
    · simp only [if_neg hq, Option.some.injEq] at hsome
      subst hsome
      rw [(mkDropped_fields ai p).1]
      exact ⟨hq, List.mem_map.mpr ⟨p, hp, rfl⟩⟩
  · intro hnd
    have hlen : (find_new_entries today ym ai).2.length =
        (today.filter
          (fun r => decide (alookup r.repo_name ym = none))).length := by
      show ((List.range today.length).filter _).length = _
      exact length_filter_range_getD today
        (fun r => decide (alookup r.repo_name ym = none)) defaultRepo
    have hcongr : today.filter (fun r => decide (alookup r.repo_name ym = none)) =
        today.filter (fun r => decide (r.repo_name ∉ ym.map Prod.fst)) := by
      apply List.filter_congr
      intro r _
      exact decide_eq_decide.mpr (alookup_eq_none _ _)
    have hmap : ((today.map Repo.repo_name).filter
        (fun x => decide (x ∉ ym.map Prod.fst))).length =
        (today.filter (fun r => decide (r.repo_name ∉ ym.map Prod.fst))).length := by
      rw [List.filter_map, List.length_map]
      rfl
    rw [hlen, hcongr, ← hmap]
    exact length_filter_notin_add_card_inter (today.map Repo.repo_name)
      (ym.map Prod.fst) hnd

/-- Witness for C3: today `{alice/alpha, bob/beta}` against yesterday
`{alice/alpha, carol/gamma}` — `bob/beta` is the new entrant,
`carol/gamma` the departed one, and `|new| + |T ∩ Y| = |T|`. -/
theorem C3_witness :
    1 ∈ (find_new_entries [wRepoA, wRepoB] wYMap wAI).2 ∧
    (find_new_entries [wRepoA, wRepoB] wYMap wAI).2.length +
      (([wRepoA, wRepoB].map Repo.repo_name).toFinset ∩
        (wYMap.map Prod.fst).toFinset).card =
      ([wRepoA, wRepoB].map Repo.repo_name).toFinset.card ∧
    ([wRepoA, wRepoB].map Repo.repo_name).toFinset.card = 2 ∧
    (find_dropped_entries [wRepoA, wRepoB] wYMap wAI).map DroppedRec.repo_name =
      ["carol/gamma"] := by
  have h := C3_set_differences [wRepoA, wRepoB] wYMap wAI
  refine ⟨(h.1 1 (by decide)).mpr (by decide), h.2.2.2.2.2 (by decide), by decide, ?_⟩
  rw [h.2.2.1]
  decide

/-! ## Claim C6 — the snapshot upsert is idempotent -/

theorem upsertAll_eq_filter_append {α κ : Type} [DecidableEq κ] (key : α → κ)
    (rows : List α) (t : List α) :
    upsertAll key t rows =
      t.filter (fun x => decide (key x ∉ rows.map key)) ++ upsertAll key [] rows := by
  induction rows generalizing t with
  | nil =>
    show t = t.filter _ ++ []
    rw [List.append_nil]
    symm
    apply List.filter_eq_self.mpr
    intro x _
    simp
  | cons r rs ih =>
    show upsertAll key (upsertBy key t r) rs = _
    rw [ih (upsertBy key t r)]
    have hnil : upsertAll key [] (r :: rs) =
        [r].filter (fun x => decide (key x ∉ rs.map key)) ++ upsertAll key [] rs := by
      show upsertAll key (upsertBy key [] r) rs = _
      rw [ih (upsertBy key [] r)]
      rfl
    rw [hnil, ← List.append_assoc]
    congr 1
    unfold upsertBy
    rw [List.filter_append, List.filter_filter]
    congr 1
    apply List.filter_congr
    intro x _
    by_cases h1 : key x = key r <;> by_cases h2 : key x ∈ List.map key rs <;>
      simp [h1, h2]

theorem mem_upsertAll {α κ : Type} [DecidableEq κ] (key : α → κ) (rows : List α)
    (t : List α) (x : α) (h : x ∈ upsertAll key t rows) :
    x ∈ t ∨ key x ∈ rows.map key := by
  induction rows generalizing t with
  | nil => exact Or.inl h
  | cons r rs ih =>
    rcases ih (upsertBy key t r) h with h' | h'
    · unfold upsertBy at h'
      rcases List.mem_append.mp h' with h'' | h''
      · exact Or.inl (List.mem_filter.mp h'').1
      · have hx : x = r := by simpa using h''
        subst hx
        exact Or.inr (by simp)
    · exact Or.inr (by simp [h'])

theorem upsertAll_idem {α κ : Type} [DecidableEq κ] (key : α → κ) (t rows : List α) :
    upsertAll key (upsertAll key t rows) rows = upsertAll key t rows := by
  have hU0 : (upsertAll key ([] : List α) rows).filter
      (fun x => decide (key x ∉ rows.map key)) = [] := by
    apply List.filter_eq_nil_iff.mpr
    intro x hx
    rcases mem_upsertAll key rows [] x hx with h | h
    · simp at h
    · simp [h]
  rw [upsertAll_eq_filter_append key rows (upsertAll key t rows),
    upsertAll_eq_filter_append key rows t, List.filter_append, hU0, List.append_nil,
    List.filter_filter]
  congr 1
  apply List.filter_congr
  intro x _
  exact Bool.and_self _

theorem nodup_keys_upsertBy {α κ : Type} [DecidableEq κ] (key : α → κ) (t : List α)
    (r : α) (h : (t.map key).Nodup) : ((upsertBy key t r).map key).Nodup := by
  unfold upsertBy
  rw [List.map_append]
  apply List.Nodup.append
  · exact List.Nodup.sublist ((List.filter_sublist _).map key) h
  · simp
  · intro a ha hb
    have hb' : a = key r := by simpa using hb
    subst hb'
    obtain ⟨x, hx, hkey⟩ := List.mem_map.mp ha
    have hne := (List.mem_filter.mp hx).2
    simp [hkey] at hne

theorem nodup_keys_upsertAll {α κ : Type} [DecidableEq κ] (key : α → κ)
    (rows : List α) (t : List α) (h : (t.map key).Nodup) :
    ((upsertAll key t rows).map key).Nodup := by
  induction rows generalizing t with
  | nil => exact h
  | cons r rs ih => exact ih _ (nodup_keys_upsertBy key t r h)

/-- C6: re-ingesting the same date with the identical batch leaves the
store state unchanged (so every later query — snapshot by date,
prior-day lookup, history — returns identical results), and the upsert
preserves the one-row-per-unique-key invariant of both tables: it
replaces, never duplicates. -/
theorem C6_idempotent (db : DB) (d : Int) (X : List Repo) :
    save_today_data (save_today_data db d X) d X = save_today_data db d X ∧
    (∀ e, get_repos_by_date (save_today_data (save_today_data db d X) d X) e =
      get_repos_by_date (save_today_data db d X) e) ∧
    (∀ e, get_yesterday_data (save_today_data (save_today_data db d X) d X) e =
      get_yesterday_data (save_today_data db d X) e) ∧
    (∀ nm c, get_repo_history (save_today_data (save_today_data db d X) d X) nm c =
      get_repo_history (save_today_data db d X) nm c) ∧
    ((db.repos_daily.map dailyKey).Nodup →
      ((save_today_data db d X).repos_daily.map dailyKey).Nodup) ∧
    ((db.repos_history.map histKey).Nodup →
      ((save_today_data db d X).repos_history.map histKey).Nodup) := by
  have hmain : save_today_data (save_today_data db d X) d X =
      save_today_data db d X := by
    unfold save_today_data
    simp only [upsertAll_idem]
  refine ⟨hmain, ?_, ?_, ?_, ?_, ?_⟩
  · intro e; rw [hmain]
  · intro e; rw [hmain]
  · intro nm c; rw [hmain]
  · intro h
    exact nodup_keys_upsertAll dailyKey (X.map (toDailyRow d)) db.repos_daily h
  · intro h
    exact nodup_keys_upsertAll histKey (X.map (toHistRow d)) db.repos_history h

/-- Witness for C6 on a concrete store and batch. -/
theorem C6_witness :
    save_today_data (save_today_data wDBEmpty 5 [wRepoA]) 5 [wRepoA] =
      save_today_data wDBEmpty 5 [wRepoA] ∧
    ((save_today_data wDBEmpty 5 [wRepoA]).repos_daily.map dailyKey).Nodup := by
  have h := C6_idempotent wDBEmpty 5 [wRepoA]
  exact ⟨h.1, h.2.2.2.2.1 (by decide)⟩

/-! ## Frame lemmas for the classifier pipeline

Each pass returns the shared store with some records enriched; these lemmas
record that the passes change neither the length, nor the `coreOf`
projection of any record, nor the name sequence, and that the short passes
preserve "all six AI keys present". -/

theorem shortPass_facts (ai : AIMap) (I : List Nat) (today : List Repo) :
    (if ai.isEmpty then today else enrichAt (enrichShort ai) I today).length =
      today.length ∧
    (∀ i d, coreOf ((if ai.isEmpty then today
        else enrichAt (enrichShort ai) I today).getD i d) = coreOf (today.getD i d)) ∧
    ((if ai.isEmpty then today else enrichAt (enrichShort ai) I today).map
        Repo.repo_name = today.map Repo.repo_name) ∧
    (∀ i d, enriched (today.getD i d) →
      enriched ((if ai.isEmpty then today
        else enrichAt (enrichShort ai) I today).getD i d)) := by
  by_cases hc : ai.isEmpty
  · rw [if_pos hc]
    exact ⟨rfl, fun _ _ => rfl, rfl, fun _ _ h => h⟩
  · rw [if_neg hc]
    refine ⟨length_enrichAt _ _ _, ?_, map_enrichAt _ _ _ _ (name_enrichShort ai), ?_⟩
    · intro i d
      by_cases hi : i < today.length
      · rw [getD_enrichAt _ _ _ i hi d]
        by_cases hm : i ∈ I <;> simp [hm, coreOf_enrichShort]
      · have h1 : (enrichAt (enrichShort ai) I today).getD i d = d :=
          getD_of_le _ i (by rw [length_enrichAt]; omega) d
        have h2 : today.getD i d = d := getD_of_le _ i (by omega) d
        rw [h1, h2]
    · intro i d h
      by_cases hi : i < today.length
      · rw [getD_enrichAt _ _ _ i hi d]
        by_cases hm : i ∈ I
        · rw [if_pos hm]
          exact enriched_enrichShort ai _ h
        · rwa [if_neg hm]
      · have h1 : (enrichAt (enrichShort ai) I today).getD i d = d :=
          getD_of_le _ i (by rw [length_enrichAt]; omega) d
        have h2 : today.getD i d = d := getD_of_le _ i (by omega) d
        rw [h2] at h
        rwa [h1]

theorem top20_facts (today : List Repo) (ai : AIMap) :
    (get_top_20_with_summary today ai).1.length = today.length ∧
    (∀ i d, coreOf ((get_top_20_with_summary today ai).1.getD i d) =
      coreOf (today.getD i d)) ∧
    ((get_top_20_with_summary today ai).1.map Repo.repo_name =
      today.map Repo.repo_name) ∧
    (∀ i d, i < today.length → i < 20 →
      enriched ((get_top_20_with_summary today ai).1.getD i d)) ∧
    (∀ i d, enriched (today.getD i d) →
      enriched ((get_top_20_with_summary today ai).1.getD i d)) := by
  have hfst : (get_top_20_with_summary today ai).1 =
      enrichAt (enrichTop ai) ((List.range today.length).take 20) today := rfl
  rw [hfst]
  refine ⟨length_enrichAt _ _ _, ?_,
    map_enrichAt _ _ _ _ (name_enrichTop ai), ?_, ?_⟩
  · intro i d
    by_cases hi : i < today.length
    · rw [getD_enrichAt _ _ _ i hi d]
      by_cases hm : i ∈ (List.range today.length).take 20 <;>
        simp [hm, coreOf_enrichTop]
    · have h1 : (enrichAt (enrichTop ai) ((List.range today.length).take 20)
          today).getD i d = d :=
        getD_of_le _ i (by rw [length_enrichAt]; omega) d
      have h2 : today.getD i d = d := getD_of_le _ i (by omega) d
      rw [h1, h2]
  · intro i d hi h20
    rw [getD_enrichAt _ _ _ i hi d, if_pos ?_]
    · exact enriched_enrichTop ai _
    · rw [List.take_range]
      exact List.mem_range.mpr (by omega)
  · intro i d h
    by_cases hi : i < today.length
    · rw [getD_enrichAt _ _ _ i hi d]
      by_cases hm : i ∈ (List.range today.length).take 20
      · rw [if_pos hm]
        exact enriched_enrichTop ai _
      · rwa [if_neg hm]
    · have h1 : (enrichAt (enrichTop ai) ((List.range today.length).take 20)
          today).getD i d = d :=
        getD_of_le _ i (by rw [length_enrichAt]; omega) d
      have h2 : today.getD i d = d := getD_of_le _ i (by omega) d
      rw [h2] at h
      rwa [h1]

theorem movers_facts (today : List Repo) (dir : String) (lim : Nat) (ai : AIMap) :
    (get_top_movers today dir lim ai).1.length = today.length ∧
    (∀ i d, coreOf ((get_top_movers today dir lim ai).1.getD i d) =
      coreOf (today.getD i d)) ∧
    ((get_top_movers today dir lim ai).1.map Repo.repo_name =
      today.map Repo.repo_name) ∧
    (∀ i d, enriched (today.getD i d) →
      enriched ((get_top_movers today dir lim ai).1.getD i d)) :=
  shortPass_facts ai ((get_top_movers today dir lim ai).2) today

theorem new_entries_facts (today : List Repo) (ym : YMap) (ai : AIMap) :
    (find_new_entries today ym ai).1.length = today.length ∧
    (∀ i d, coreOf ((find_new_entries today ym ai).1.getD i d) =
      coreOf (today.getD i d)) ∧
    ((find_new_entries today ym ai).1.map Repo.repo_name =
      today.map Repo.repo_name) ∧
    (∀ i d, enriched (today.getD i d) →
      enriched ((find_new_entries today ym ai).1.getD i d)) :=
  shortPass_facts ai ((find_new_entries today ym ai).2) today

theorem surging_facts (today : List Repo) (ai : AIMap) (θ : ℚ) :
    (find_surging_repos today ai θ).1.length = today.length ∧
    (∀ i d, coreOf ((find_surging_repos today ai θ).1.getD i d) =
      coreOf (today.getD i d)) ∧
    ((find_surging_repos today ai θ).1.map Repo.repo_name =
      today.map Repo.repo_name) ∧
    (∀ i d, enriched (today.getD i d) →
      enriched ((find_surging_repos today ai θ).1.getD i d)) :=
  shortPass_facts ai ((find_surging_repos today ai θ).2) today

theorem active_facts (today : List Repo) (ai : AIMap) :
    (find_active_repos today ai).1.length = today.length ∧
    (∀ i d, coreOf ((find_active_repos today ai).1.getD i d) =
      coreOf (today.getD i d)) ∧
    ((find_active_repos today ai).1.map Repo.repo_name =
      today.map Repo.repo_name) ∧
    (∀ i d, enriched (today.getD i d) →
      enriched ((find_active_repos today ai).1.getD i d)) :=
  shortPass_facts ai ((find_active_repos today ai).2) today

theorem top20_idxs_lt (today : List Repo) (ai : AIMap) :
    ∀ i ∈ (get_top_20_with_summary today ai).2, i < today.length := by
  intro i hi
  have h : i ∈ (List.range today.length).take 20 := hi
  rw [List.take_range] at h
  have := List.mem_range.mp h
  omega

theorem movers_idxs_lt (today : List Repo) (dir : String) (lim : Nat) (ai : AIMap) :
    ∀ i ∈ (get_top_movers today dir lim ai).2, i < today.length := by
  intro i hi
  simp only [get_top_movers] at hi
  have hi' := List.mem_of_mem_take hi
  by_cases hdir : dir = "up"
  · rw [if_pos hdir, mem_sortDescBy] at hi'
    exact List.mem_range.mp (List.mem_filter.mp hi').1
  · rw [if_neg hdir, mem_sortAscBy] at hi'
    exact List.mem_range.mp (List.mem_filter.mp hi').1

theorem new_entries_idxs_lt (today : List Repo) (ym : YMap) (ai : AIMap) :
    ∀ i ∈ (find_new_entries today ym ai).2, i < today.length := by
  intro i hi
  exact List.mem_range.mp (List.mem_filter.mp hi).1

theorem surging_idxs_lt (today : List Repo) (ai : AIMap) (θ : ℚ) :
    ∀ i ∈ (find_surging_repos today ai θ).2, i < today.length := by
  intro i hi
  exact List.mem_range.mp (List.mem_filter.mp hi).1

theorem active_idxs_lt (today : List Repo) (ai : AIMap) :
    ∀ i ∈ (find_active_repos today ai).2, i < today.length := by
  intro i hi
  simp only [find_active_repos] at hi
  have hi' := List.mem_of_mem_take hi
  rw [mem_sortDescBy] at hi'
  exact List.mem_range.mp (List.mem_filter.mp hi').1

/-! The output of `calculate_trends`, pass by pass (all definitional). -/

theorem trendsOf_store (db : DB) (today : List Repo) (date : Int) (ai : AIMap) (θ : ℚ) :
    (trendsOf db today date ai θ).store = s7Of db today date ai θ := rfl

theorem trendsOf_top_20 (db : DB) (today : List Repo) (date : Int) (ai : AIMap) (θ : ℚ) :
    (trendsOf db today date ai θ).top_20 =
      (get_top_20_with_summary (s1Of db today date) ai).2 := rfl

theorem trendsOf_rising (db : DB) (today : List Repo) (date : Int) (ai : AIMap) (θ : ℚ) :
    (trendsOf db today date ai θ).rising_top5 =
      (get_top_movers (s2Of db today date ai) "up" 5 ai).2 := rfl

theorem trendsOf_falling (db : DB) (today : List Repo) (date : Int) (ai : AIMap) (θ : ℚ) :
    (trendsOf db today date ai θ).falling_top5 =
      (get_top_movers (s3Of db today date ai) "down" 5 ai).2 := rfl

theorem trendsOf_new (db : DB) (today : List Repo) (date : Int) (ai : AIMap) (θ : ℚ) :
    (trendsOf db today date ai θ).new_entries =
      (find_new_entries (s4Of db today date ai) (ymOf db date) ai).2 := rfl

theorem trendsOf_dropped (db : DB) (today : List Repo) (date : Int) (ai : AIMap) (θ : ℚ) :
    (trendsOf db today date ai θ).dropped_entries =
      find_dropped_entries (s5Of db today date ai) (ymOf db date) ai := rfl

theorem trendsOf_surging (db : DB) (today : List Repo) (date : Int) (ai : AIMap) (θ : ℚ) :
    (trendsOf db today date ai θ).surging =
      (find_surging_repos (s5Of db today date ai) ai θ).2 := rfl

theorem trendsOf_active (db : DB) (today : List Repo) (date : Int) (ai : AIMap) (θ : ℚ) :
    (trendsOf db today date ai θ).active =
      (find_active_repos (s6Of db today date ai θ) ai).2 := rfl

/-! Chained frame facts across the whole pipeline. -/

theorem s1Of_length (db : DB) (today : List Repo) (date : Int) :
    (s1Of db today date).length = today.length := by
  simp [s1Of, calculate_deltas]

theorem pipeline_lengths (db : DB) (today : List Repo) (date : Int) (ai : AIMap) (θ : ℚ) :
    (s2Of db today date ai).length = today.length ∧
    (s3Of db today date ai).length = today.length ∧
    (s4Of db today date ai).length = today.length ∧
    (s5Of db today date ai).length = today.length ∧
    (s6Of db today date ai θ).length = today.length ∧
    (s7Of db today date ai θ).length = today.length := by
  have h1 := s1Of_length db today date
  have h2 : (s2Of db today date ai).length = (s1Of db today date).length :=
    (top20_facts (s1Of db today date) ai).1
  have h3 : (s3Of db today date ai).length = (s2Of db today date ai).length :=
    (movers_facts (s2Of db today date ai) "up" 5 ai).1
  have h4 : (s4Of db today date ai).length = (s3Of db today date ai).length :=
    (movers_facts (s3Of db today date ai) "down" 5 ai).1
  have h5 : (s5Of db today date ai).length = (s4Of db today date ai).length :=
    (new_entries_facts (s4Of db today date ai) (ymOf db date) ai).1
  have h6 : (s6Of db today date ai θ).length = (s5Of db today date ai).length :=
    (surging_facts (s5Of db today date ai) ai θ).1
  have h7 : (s7Of db today date ai θ).length = (s6Of db today date ai θ).length :=
    (active_facts (s6Of db today date ai θ) ai).1
  omega

theorem pipeline_name (db : DB) (today : List Repo) (date : Int) (ai : AIMap) (θ : ℚ) :
    (s7Of db today date ai θ).map Repo.repo_name = today.map Repo.repo_name := by
  have h1 : (s1Of db today date).map Repo.repo_name = today.map Repo.repo_name := by
    unfold s1Of calculate_deltas
    rw [List.map_map]
    congr 1
    funext a
    exact name_annotateDeltas _ a
  have h2 : (s2Of db today date ai).map Repo.repo_name =
      (s1Of db today date).map Repo.repo_name :=
    (top20_facts (s1Of db today date) ai).2.2.1
  have h3 : (s3Of db today date ai).map Repo.repo_name =
      (s2Of db today date ai).map Repo.repo_name :=
    (movers_facts (s2Of db today date ai) "up" 5 ai).2.2.1
  have h4 : (s4Of db today date ai).map Repo.repo_name =
      (s3Of db today date ai).map Repo.repo_name :=
    (movers_facts (s3Of db today date ai) "down" 5 ai).2.2.1
  have h5 : (s5Of db today date ai).map Repo.repo_name =
      (s4Of db today date ai).map Repo.repo_name :=
    (new_entries_facts (s4Of db today date ai) (ymOf db date) ai).2.2.1
  have h6 : (s6Of db today date ai θ).map Repo.repo_name =
      (s5Of db today date ai).map Repo.repo_name :=
    (surging_facts (s5Of db today date ai) ai θ).2.2.1
  have h7 : (s7Of db today date ai θ).map Repo.repo_name =
      (s6Of db today date ai θ).map Repo.repo_name :=
    (active_facts (s6Of db today date ai θ) ai).2.2.1
  rw [h7, h6, h5, h4, h3, h2, h1]

theorem pipeline_core (db : DB) (today : List Repo) (date : Int) (ai : AIMap) (θ : ℚ)
    (i : Nat) (d : Repo) :
    coreOf ((s7Of db today date ai θ).getD i d) =
      coreOf ((s1Of db today date).getD i d) := by
  have h2 : coreOf ((s2Of db today date ai).getD i d) =
      coreOf ((s1Of db today date).getD i d) :=
    (top20_facts (s1Of db today date) ai).2.1 i d
  have h3 : coreOf ((s3Of db today date ai).getD i d) =
      coreOf ((s2Of db today date ai).getD i d) :=
    (movers_facts (s2Of db today date ai) "up" 5 ai).2.1 i d
  have h4 : coreOf ((s4Of db today date ai).getD i d) =
      coreOf ((s3Of db today date ai).getD i d) :=
    (movers_facts (s3Of db today date ai) "down" 5 ai).2.1 i d
  have h5 : coreOf ((s5Of db today date ai).getD i d) =
      coreOf ((s4Of db today date ai).getD i d) :=
    (new_entries_facts (s4Of db today date ai) (ymOf db date) ai).2.1 i d
  have h6 : coreOf ((s6Of db today date ai θ).getD i d) =
      coreOf ((s5Of db today date ai).getD i d) :=
    (surging_facts (s5Of db today date ai) ai θ).2.1 i d
  have h7 : coreOf ((s7Of db today date ai θ).getD i d) =
      coreOf ((s6Of db today date ai θ).getD i d) :=
    (active_facts (s6Of db today date ai θ) ai).2.1 i d
  exact h7.trans (h6.trans (h5.trans (h4.trans (h3.trans h2))))

theorem pipeline_enriched (db : DB) (today : List Repo) (date : Int) (ai : AIMap)
    (θ : ℚ) (i : Nat) (d : Repo)
    (h : enriched ((s2Of db today date ai).getD i d)) :
    enriched ((s7Of db today date ai θ).getD i d) := by
  have h3 : enriched ((s3Of db today date ai).getD i d) :=
    (movers_facts (s2Of db today date ai) "up" 5 ai).2.2.2 i d h
  have h4 : enriched ((s4Of db today date ai).getD i d) :=
    (movers_facts (s3Of db today date ai) "down" 5 ai).2.2.2 i d h3
  have h5 : enriched ((s5Of db today date ai).getD i d) :=
    (new_entries_facts (s4Of db today date ai) (ymOf db date) ai).2.2.2 i d h4
  have h6 : enriched ((s6Of db today date ai θ).getD i d) :=
    (surging_facts (s5Of db today date ai) ai θ).2.2.2 i d h5
  exact (active_facts (s6Of db today date ai θ) ai).2.2.2 i d h6

/-! ## Claim C10 — all buckets alias one shared store -/

/-- C10: `calculate_trends` annotates today's records in place; every index
bucket points into the one final store (same names, same length as today's
list, all indices in range), so an entity appearing in several buckets has
literally identical entries (same index, for a duplicate-free day); and
every top-20 member carries all six AI keys — the full enrichment fields,
not only the short ones — even when it also sits in a short-field bucket. -/
theorem C10_aliasing (db : DB) (today : List Repo) (date : Int) (ai : AIMap) (θ : ℚ)
    (hnd : (today.map Repo.repo_name).Nodup) :
    (trendsOf db today date ai θ).store.map Repo.repo_name =
      today.map Repo.repo_name ∧
    (trendsOf db today date ai θ).store.length = today.length ∧
    (∀ i ∈ bucketIdxs (trendsOf db today date ai θ), i < today.length) ∧
    (∀ i ∈ bucketIdxs (trendsOf db today date ai θ),
      ∀ j ∈ bucketIdxs (trendsOf db today date ai θ),
      ((trendsOf db today date ai θ).store.getD i defaultRepo).repo_name =
        ((trendsOf db today date ai θ).store.getD j defaultRepo).repo_name → i = j) ∧
    (∀ i ∈ (trendsOf db today date ai θ).top_20,
      enriched ((trendsOf db today date ai θ).store.getD i defaultRepo)) := by
  obtain ⟨hL2, hL3, hL4, hL5, hL6, hL7⟩ := pipeline_lengths db today date ai θ
  have hs1 := s1Of_length db today date
  have hname := pipeline_name db today date ai θ
  have hbound : ∀ i ∈ bucketIdxs (trendsOf db today date ai θ), i < today.length := by
    intro i hi
    have hi0 : i ∈ (trendsOf db today date ai θ).top_20 ∨
        i ∈ (trendsOf db today date ai θ).rising_top5 ∨
        i ∈ (trendsOf db today date ai θ).falling_top5 ∨
        i ∈ (trendsOf db today date ai θ).new_entries ∨
        i ∈ (trendsOf db today date ai θ).surging ∨
        i ∈ (trendsOf db today date ai θ).active := by
      simpa only [bucketIdxs, List.mem_append, or_assoc] using hi
    rcases hi0 with h | h | h | h | h | h
    · rw [trendsOf_top_20] at h
      have := top20_idxs_lt (s1Of db today date) ai i h
      omega
    · rw [trendsOf_rising] at h
      have := movers_idxs_lt (s2Of db today date ai) "up" 5 ai i h
      omega
    · rw [trendsOf_falling] at h
      have := movers_idxs_lt (s3Of db today date ai) "down" 5 ai i h
      omega
    · rw [trendsOf_new] at h
      have := new_entries_idxs_lt (s4Of db today date ai) (ymOf db date) ai i h
      omega
    · rw [trendsOf_surging] at h
      have := surging_idxs_lt (s5Of db today date ai) ai θ i h
      omega
    · rw [trendsOf_active] at h
      have := active_idxs_lt (s6Of db today date ai θ) ai i h
      omega
  refine ⟨by rw [trendsOf_store]; exact hname,
    by rw [trendsOf_store]; exact hL7, hbound, ?_, ?_⟩
  · intro i hi j hj heq
    rw [trendsOf_store] at heq
    have hi' : i < today.length := hbound i hi
    have hj' : j < today.length := hbound j hj
    have hi7 : i < (s7Of db today date ai θ).length := by omega
    have hj7 : j < (s7Of db today date ai θ).length := by omega
    have hi7m : i < ((s7Of db today date ai θ).map Repo.repo_name).length := by
      rw [List.length_map]; exact hi7
    have hj7m : j < ((s7Of db today date ai θ).map Repo.repo_name).length := by
      rw [List.length_map]; exact hj7
    have hnd7 : ((s7Of db today date ai θ).map Repo.repo_name).Nodup := by
      rw [hname]; exact hnd
    have e1 : ((s7Of db today date ai θ).map Repo.repo_name).get ⟨i, hi7m⟩ =
        ((s7Of db today date ai θ).getD i defaultRepo).repo_name := by
      simp [List.get_eq_getElem, List.getElem_map,
        List.getD_eq_getElem _ defaultRepo hi7, List.getElem?_eq_getElem hi7]
    have e2 : ((s7Of db today date ai θ).map Repo.repo_name).get ⟨j, hj7m⟩ =
        ((s7Of db today date ai θ).getD j defaultRepo).repo_name := by
      simp [List.get_eq_getElem, List.getElem_map,
        List.getD_eq_getElem _ defaultRepo hj7, List.getElem?_eq_getElem hj7]
    have hfin : (⟨i, hi7m⟩ : Fin _) = ⟨j, hj7m⟩ :=
      hnd7.get_inj_iff.mp (e1.trans (heq.trans e2.symm))
    exact congrArg Fin.val hfin
  · intro i hi
    rw [trendsOf_top_20] at hi
    have hi' : i ∈ (List.range (s1Of db today date).length).take 20 := hi
    rw [List.take_range, List.mem_range] at hi'
    have hienr : enriched ((s2Of db today date ai).getD i defaultRepo) :=
      (top20_facts (s1Of db today date) ai).2.2.2.1 i defaultRepo (by omega) (by omega)
    rw [trendsOf_store]
    exact pipeline_enriched db today date ai θ i defaultRepo hienr

/-- Witness for C10 on a concrete run (empty prior store, two records). -/
theorem C10_witness :
    (trendsOf wDBEmpty [wRepoA, wRepoB] 5 wAI 1).store.map Repo.repo_name =
      ["alice/alpha", "bob/beta"] ∧
    (trendsOf wDBEmpty [wRepoA, wRepoB] 5 wAI 1).store.length = 2 := by
  have h := C10_aliasing wDBEmpty [wRepoA, wRepoB] 5 wAI 1 (by decide)
  exact ⟨h.1.trans (by rfl), h.2.1.trans (by rfl)⟩

/-! ## Claim C5 — prior-day lookup and missing history -/

/-- C5: `get_yesterday_data` returns exactly the rows stored for the
calendar day `D - 1`, ordered by rank ascending, and the empty sequence
when that day has no rows; `calculate_trends` treats that empty result as
"no history" — every record of the day gets zero deltas and the
departed-entrants bucket is empty — rather than as an error (the pipeline
is a total function). -/
theorem C5_prior_day (db : DB) (D : Int) (today : List Repo) (ai : AIMap) (θ : ℚ) :
    (get_yesterday_data db D).Perm
      (db.repos_daily.filter (fun r => decide (r.date = D - 1))) ∧
    List.Sorted (fun a b => a.rank ≤ b.rank) (get_yesterday_data db D) ∧
    (db.repos_daily.filter (fun r => decide (r.date = D - 1)) = [] →
      get_yesterday_data db D = [] ∧
      (trendsOf db today D ai θ).dropped_entries = [] ∧
      (∀ i, i < (trendsOf db today D ai θ).store.length →
        ((trendsOf db today D ai θ).store.getD i defaultRepo).rank_delta = some 0 ∧
        ((trendsOf db today D ai θ).store.getD i defaultRepo).stars_delta = some 0 ∧
        ((trendsOf db today D ai θ).store.getD i defaultRepo).stars_rate = some 0)) := by
  refine ⟨perm_sortAscBy _ _, sorted_sortAscBy _ _, ?_⟩
  intro h
  have hy : get_yesterday_data db D = [] := by
    show sortAscBy (fun r => r.rank)
      (db.repos_daily.filter (fun r => decide (r.date = D - 1))) = []
    rw [h]
    rfl
  have hym : ymOf db D = [] := by
    unfold ymOf
    rw [hy]
    rfl
  refine ⟨hy, ?_, ?_⟩
  · rw [trendsOf_dropped, hym]
    rfl
  · intro i hlen
    have hlen7 : (trendsOf db today D ai θ).store.length = today.length := by
      rw [trendsOf_store]
      exact (pipeline_lengths db today D ai θ).2.2.2.2.2
    have hi : i < today.length := by omega
    have hcore : coreOf ((s7Of db today D ai θ).getD i defaultRepo) =
        coreOf ((s1Of db today D).getD i defaultRepo) :=
      pipeline_core db today D ai θ i defaultRepo
    have hs1get : (s1Of db today D).getD i defaultRepo =
        annotateDeltas (ymOf db D) (today.getD i defaultRepo) := by
      unfold s1Of calculate_deltas
      exact getD_map _ today i hi defaultRepo defaultRepo
    have hzero : annotateDeltas (ymOf db D) (today.getD i defaultRepo) =
        { today.getD i defaultRepo with
          rank_delta := some 0, stars_delta := some 0, stars_rate := some 0 } := by
      rw [hym]
      rfl
    rw [trendsOf_store]
    rw [hs1get, hzero] at hcore
    simp only [coreOf, Prod.mk.injEq] at hcore
    obtain ⟨_, _, _, hrd, hsd, hsr, _⟩ := hcore
    exact ⟨hrd, hsd, hsr⟩

/-- Witness for C5: an empty store has no prior day; the concrete run gets
an empty departed bucket and zero deltas. -/
theorem C5_witness :
    get_yesterday_data wDBEmpty 7 = [] ∧
    (trendsOf wDBEmpty [wRepoA] 7 wAI 1).dropped_entries = [] ∧
    ((trendsOf wDBEmpty [wRepoA] 7 wAI 1).store.getD 0 defaultRepo).rank_delta =
      some 0 := by
  have h := (C5_prior_day wDBEmpty 7 [wRepoA] wAI 1).2.2 (by rfl)
  refine ⟨h.1, h.2.1, ?_⟩
  have hl : (trendsOf wDBEmpty [wRepoA] 7 wAI 1).store.length = 1 := by
    rw [trendsOf_store]
    exact (pipeline_lengths wDBEmpty [wRepoA] 7 wAI 1).2.2.2.2.2
  exact (h.2.2 0 (by omega)).1

end GhTrending
